import Mathlib

/-!
A verification development for the `stencil-automated-stories` repository.
The story-generator module `src/.storybook/stories/automatedStories.js`
inspects compiled Stencil component metadata (declared properties,
attributes, default values) and dynamically constructs Storybook stories
with auto-generated controls. The definitions below embed that module's
functions; external library functions it calls (`JSON.parse`, `Case.camel`,
`Case.kebab`, `path.dirname`, `path.basename`) are embedded as explicit
models or parameters, marked as such.
-/

namespace AutomatedStories

/-- A JavaScript value, as far as the story generator distinguishes them:
`undefined`, `null`, booleans, numbers, strings, and the `new Date()`
object the date branch produces (kept symbolic). -/
inductive JsVal where
  | undefined
  | nullv
  | bool (b : Bool)
  | num (n : Int)
  | str (s : String)
  | dateNow
deriving DecidableEq

/-- Whether a JavaScript value is a string (`typeof v === 'string'`). -/
def JsVal.isStr : JsVal → Bool
  | .str _ => true
  | _ => false

/-- JavaScript truthiness: `undefined`, `null`, `false`, `0` and the empty
string are falsy; every other value here is truthy. -/
def truthy : JsVal → Bool
  | .undefined => false
  | .nullv => false
  | .bool b => b
  | .num n => !(n == 0)
  | .str s => !s.data.isEmpty
  | .dateNow => true

/-- A single-quote character, as a one-character string. -/
def squote : String := "'"

/-- The single-quote character. -/
def squoteChar : Char := Char.ofNat 39

/-- The pipe character. -/
def pipeChar : Char := Char.ofNat 124

/-- Lowercase every character of a string (the model of `toLowerCase`). -/
def lowerStr (s : String) : String := String.mk (s.data.map Char.toLower)

/-- An anchored case-insensitive regex test such as the line-27 test of
`prop.type`: equality of the lowercased strings. -/
def eqI (a b : String) : Bool := lowerStr a == lowerStr b

/-- Whether the character list `s` starts with the character list `pat`. -/
def charsStartWith : List Char → List Char → Bool
  | _, [] => true
  | [], _ :: _ => false
  | c :: cs, p :: ps => c == p && charsStartWith cs ps

/-- Whether the character list `pat` occurs inside the character list `s`. -/
def charsContain : List Char → List Char → Bool
  | [], pat => pat.isEmpty
  | c :: cs, pat => charsStartWith (c :: cs) pat || charsContain cs pat

/-- Whether `pat` occurs as a substring of `s` (the `indexOf` check of
line 41 and the line-290 route match). -/
def containsSub (s pat : String) : Bool := charsContain s.data pat.data

/-- Fuel-driven splitting of a character list on a separator: `fuel` bounds
the recursion and is always at least the list length plus one. -/
def splitAux (sep : List Char) : Nat → List Char → List (List Char)
  | 0, s => [s]
  | _ + 1, [] => [[]]
  | n + 1, c :: cs =>
    if charsStartWith (c :: cs) sep && !sep.isEmpty then
      [] :: splitAux sep n ((c :: cs).drop sep.length)
    else
      match splitAux sep n cs with
      | [] => [[c]]
      | g :: gs => (c :: g) :: gs

/-- Split a character list on a separator (the model of `split`). -/
def splitOnChars (s sep : List Char) : List (List Char) :=
  splitAux sep (s.length + 1) s

/-- A word character in the sense of the regex class backslash-w. -/
def isWordChar (c : Char) : Bool := c.isAlphanum || c == '_'

/-- A character of the regex class backslash-w or a hyphen (the class the
select-option regex on line 32 repeats). -/
def isRunChar (c : Char) : Bool := isWordChar c || c == '-'

/-- After one or more `p`-characters: a single quote closes the run, a
further `p`-character continues it. -/
def afterRun (p : Char → Bool) : List Char → Bool
  | [] => false
  | c :: cs => c == squoteChar || (p c && afterRun p cs)

/-- One or more `p`-characters followed by a closing single quote. -/
def runThenQuote (p : Char → Bool) : List Char → Bool
  | [] => false
  | c :: cs => p c && afterRun p cs

/-- Whether the list contains a single-quoted nonempty run of
`p`-characters — the containment semantics of a `test` or `match` against a
quote-run-quote regex. -/
def hasQuotedSub (p : Char → Bool) : List Char → Bool
  | [] => false
  | c :: cs => (c == squoteChar && runThenQuote p cs) || hasQuotedSub p cs

/-- The line-58 test for a quoted word: `s` contains a single-quoted
nonempty run of word characters. -/
def hasQuotedWordSub (s : String) : Bool := hasQuotedSub isWordChar s.data

/-- Whether the list contains two adjacent single quotes. -/
def hasDoubleQuoteSub : List Char → Bool
  | c :: c' :: cs => (c == squoteChar && c' == squoteChar) || hasDoubleQuoteSub (c' :: cs)
  | _ => false

/-- The line-58 test for a quoted empty string: `s` contains two adjacent
single quotes. -/
def hasQuotedEmptySub (s : String) : Bool := hasDoubleQuoteSub s.data

/-- The line-32 match: the alternative contains a single-quoted nonempty
run of word-or-hyphen characters. -/
def hasQuotedRun (s : String) : Bool := hasQuotedSub isRunChar s.data

/-- Remove every single quote from `s` — the line-58 replace of all
quotes. -/
def removeQuotes (s : String) : String :=
  String.mk (s.data.filter fun c => !(c == squoteChar))

/-- Remove every single quote and pipe from `s` — the line-32 replace. -/
def removeQuotesPipes (s : String) : String :=
  String.mk (s.data.filter fun c => !(c == squoteChar || c == pipeChar))

/-- Strip leading and trailing whitespace from a character list. -/
def trimChars (l : List Char) : List Char :=
  ((l.dropWhile Char.isWhitespace).reverse.dropWhile Char.isWhitespace).reverse

/-- The model of `trim`. -/
def trimStr (s : String) : String := String.mk (trimChars s.data)

/-- Whether `s` is exactly a single-quoted word: a quote, one or more word
characters, a quote. Used to state properties about quoted-word defaults. -/
def isQuotedWord (s : String) : Bool :=
  match s.data with
  | [] => false
  | c :: cs =>
    c == squoteChar && cs.getLast? == some squoteChar &&
      !cs.dropLast.isEmpty && cs.dropLast.all isWordChar

/-- Capitalize the first character of a word. -/
def capitalize (w : String) : String :=
  match w.data with
  | [] => ""
  | c :: cs => String.mk (c.toUpper :: cs)

/-- A model of the external `Case.camel` from the `case` package, for the
kebab-case attribute names Stencil emits: the first dash-separated word is
kept, the following ones are capitalized and joined. -/
def camelCase (s : String) : String :=
  match (splitOnChars s.data [Char.ofNat 45]).map String.mk with
  | [] => ""
  | w :: ws => w ++ String.join (ws.map capitalize)

/-- One character of the `Case.kebab` model: an uppercase letter becomes a
dash and its lowercase form. -/
def kebabChar (c : Char) : List Char :=
  if c.isUpper then [Char.ofNat 45, c.toLower] else [c]

/-- A model of the external `Case.kebab` from the `case` package, for the
camelCase prop names the render function kebab-cases on line 221. -/
def kebabCase (s : String) : String := String.mk (s.data.map kebabChar).flatten

/-- A Storybook control descriptor: a control type and, for select
controls, its options. -/
structure Control where
  type : String
  options : List String := []
deriving DecidableEq

/-- The shape of the `control` variable of `getControlForProp` and of a
user-supplied `argTypes` entry: an inner control and a default value (the
initial object carries an empty-string `defaultValue`; branch-assigned
objects have no `defaultValue` key, read back as `undefined`). -/
structure ArgTypeEntry where
  control : Control
  defaultValue : JsVal := .undefined
deriving DecidableEq

/-- The result of `getControlForProp` (line 74): the computed default and
the control entry with its `defaultValue` field set to that default. -/
structure ControlResult where
  defaultVal : JsVal
  control : ArgTypeEntry
deriving DecidableEq

/-- A compiled property descriptor as the control generator consumes it:
the declared type text, the attribute name, the compiled default value, and
the original source type text (`complexType.original`). -/
structure PropMeta where
  type : String
  attrName : String
  defaultValue : JsVal
  originalType : String
deriving DecidableEq

/-- The line-19 lookup of an `args` entry under the camelCased attribute,
falling back to the raw attribute name, with JavaScript falsy-skipping:
an absent key reads as `undefined`, and a falsy camelCase entry falls
through to the raw attribute entry. -/
def argsOverride (args : List (String × JsVal)) (attr : String) : JsVal :=
  let camelHit := (args.lookup (camelCase attr)).getD .undefined
  if truthy camelHit then camelHit else (args.lookup attr).getD .undefined

/-- The line-20 lookup of an `argTypes` entry (camelCased attribute, then
raw attribute) followed by the line-23 truthiness test: `none` models an
absent or falsy entry, so the result is `some` exactly when a truthy
override is found. -/
def argTypesOverride (argTypes : List (String × Option ArgTypeEntry))
    (attr : String) : Option ArgTypeEntry :=
  match (argTypes.lookup (camelCase attr)).join with
  | some e => some e
  | none => (argTypes.lookup attr).join

/-- The primitive type names of the anchored line-27/30 regexes. -/
def primitiveTypes : List String := ["string", "number", "boolean", "object"]

/-- Whether a source type text is itself one of the primitive type names,
case-insensitively (the anchored line-30 regex). -/
def isPrimitiveTypeName (s : String) : Bool := primitiveTypes.contains (lowerStr s)

/-- The line-32 per-alternative mapping: an alternative containing a
single-quoted word-or-hyphen run has all its quotes and pipes removed and
is trimmed; any other alternative is kept verbatim. -/
def cleanAlternative (o : String) : String :=
  if hasQuotedRun o then trimStr (removeQuotesPipes o) else o

/-- Lines 31–32: split the original union type on the separator and clean
each alternative. -/
def parseSelectOptions (original : String) : List String :=
  ((splitOnChars original.data (" | ").data).map String.mk).map cleanAlternative

/-- `getControlForProp` (lines 10–75). `jp` is the external `JSON.parse`,
whose grammar the repository does not define: `jp s = none` models
`JSON.parse(s)` throwing, `some v` a successful parse. The `branch` chain
mirrors lines 23–48 (a truthy argTypes override wins, then the anchored
type tests, then the date attribute check, whose branch also sets the
default to `new Date()`), and `defaultVal` mirrors lines 50–63 including
the catch fallback ternary on line 61. -/
def getControlForProp (jp : String → Option JsVal) (prop : PropMeta)
    (args : List (String × JsVal)) (argTypes : List (String × Option ArgTypeEntry)) :
    ControlResult :=
  let initialControl : ArgTypeEntry :=
    { control := { type := "text" }, defaultValue := JsVal.str "" }
  let argsOption : JsVal := argsOverride args prop.attrName
  let argTypesOptions : Option ArgTypeEntry := argTypesOverride argTypes prop.attrName
  let branch : ArgTypeEntry × JsVal :=
    match argTypesOptions with
    | some e => (e, JsVal.str "")
    | none =>
      if eqI prop.type "number" || eqI prop.type "boolean" || eqI prop.type "object" then
        ({ control := { type := lowerStr prop.type } }, JsVal.str "")
      else if eqI prop.type "string" then
        if !isPrimitiveTypeName prop.originalType then
          ({ control := { type := "select", options := parseSelectOptions prop.originalType } },
            JsVal.str "")
        else (initialControl, JsVal.str "")
      else if containsSub prop.attrName "date" then
        ({ control := { type := "date" } }, JsVal.dateNow)
      else (initialControl, JsVal.str "")
  let defaultVal : JsVal :=
    if truthy argsOption then argsOption
    else if truthy prop.defaultValue then
      match prop.defaultValue with
      | JsVal.str s =>
        if hasQuotedWordSub s || hasQuotedEmptySub s then
          if hasQuotedEmptySub s then JsVal.str "Example Label"
          else JsVal.str (removeQuotes s)
        else
          match jp s with
          | some v => v
          | none => if prop.defaultValue.isStr then prop.defaultValue else JsVal.undefined
      | v => v
    else branch.2
  { defaultVal := defaultVal, control := { branch.1 with defaultValue := defaultVal } }

/-- A compiled property descriptor as it appears on a component's
`properties` object: an optional `attribute` key, an optional legacy `attr`
key, and the control-relevant metadata. -/
structure PropDescriptor where
  attrKey : Option String := none
  legacyAttr : Option String := none
  type : String := "string"
  defaultValue : JsVal := .undefined
  originalType : String := ""
deriving DecidableEq

/-- Lines 87–89: when the descriptor has a legacy `attr` own property, its
value unconditionally overwrites `attribute`. -/
def normalizeDescriptor (d : PropDescriptor) : PropDescriptor :=
  match d.legacyAttr with
  | some a => { d with attrKey := some a }
  | none => d

/-- A compiled Stencil component class as the generator sees it: the static
`name`, the duck-typed `prototype`, `is` (the tag) and `encapsulation`
values, and the `properties` metadata object (`none` when absent). -/
structure Component where
  name : String := ""
  is : JsVal := .undefined
  prototype : JsVal := .undefined
  encapsulation : JsVal := .undefined
  properties : Option (List (String × PropDescriptor)) := none
deriving DecidableEq

/-- The property metadata handed to `getControlForProp` for a normalized
descriptor whose attribute is `a`. -/
def descriptorProp (d : PropDescriptor) (a : String) : PropMeta :=
  { type := d.type, attrName := a, defaultValue := d.defaultValue,
    originalType := d.originalType }

/-- `getPropsWithControlValues` (lines 81–101): walk the component's
properties in order, normalize the legacy `attr` key, keep exactly the
descriptors that carry an attribute, and accumulate the `args` (defaults)
and `argTypes` (control entries) dictionaries keyed by the property key. -/
def getPropsWithControlValues (jp : String → Option JsVal) (comp : Component)
    (args : List (String × JsVal)) (argTypes : List (String × Option ArgTypeEntry)) :
    List (String × JsVal) × List (String × ArgTypeEntry) :=
  let entries : List (String × ControlResult) :=
    (comp.properties.getD []).filterMap fun kd =>
      let property := normalizeDescriptor kd.2
      match property.attrKey with
      | some a => some (kd.1, getControlForProp jp (descriptorProp property a) args argTypes)
      | none => none
  (entries.map fun e => (e.1, e.2.defaultVal),
   entries.map fun e => (e.1, e.2.control))

/-- A child node spec of a story state (the `children` entries; the only
one the module itself builds is flat). -/
structure ChildSpec where
  tag : String
  innerText : String := ""
deriving DecidableEq

/-- One state a story displays: a heading, an optional description, an
optional tag, the props applied to the rendered component, the `argTypes`
field the render function writes onto the default state, and children. -/
structure StoryState where
  title : String := ""
  description : Option String := none
  tag : Option String := none
  props : List (String × JsVal) := []
  argTypesF : List (String × ArgTypeEntry) := []
  children : List ChildSpec := []
deriving DecidableEq

/-- The title of the prepended interactive default state (line 196). -/
def defaultStateTitle : String := "Default state (use Controls below to edit props):"

/-- A generator config entry for one story (the argument of
`createStencilStory`): the component, optional notes, the extra states and
the user overrides. -/
structure StoryConfig where
  comp : Component := {}
  notes : Option String := none
  states : List StoryState := []
  args : List (String × JsVal) := []
  argTypes : List (String × Option ArgTypeEntry) := []
deriving DecidableEq

/-- A coarse model of the JavaScript string cast applied to the tag on
line 217; tags are strings in practice. -/
def jsString : JsVal → String
  | .str s => s
  | .undefined => "undefined"
  | .nullv => "null"
  | .bool b => if b then "true" else "false"
  | .num n => toString n
  | .dateNow => "dateNow"

/-- Lines 193–200: clone the states array (an empty or missing array
becomes the empty array) and unshift the interactive default state. -/
def initialStates (config : StoryConfig) : List StoryState :=
  let copied := if config.states.isEmpty then [] else config.states.drop 0
  { title := defaultStateTitle, tag := some (jsString config.comp.is), props := [],
    children := [{ tag := "span", innerText := "Default" }] } :: copied

/-- The story `createStencilStory` registers (lines 185–250): its name,
the component tag, the closure's mutable states array, the generated
controls and the notes. -/
structure StencilStory where
  name : String
  tag : String
  states : List StoryState
  argsOpt : List (String × JsVal)
  argTypesOpt : List (String × ArgTypeEntry)
  notes : Option String
deriving DecidableEq

/-- `createStencilStory` (lines 185–203): compute the controls from the
component metadata, build the initial states and register the story. -/
def createStencilStory (jp : String → Option JsVal) (config : StoryConfig) :
    StencilStory :=
  let controls := getPropsWithControlValues jp config.comp config.args config.argTypes
  { name := config.comp.name, tag := jsString config.comp.is,
    states := initialStates config,
    argsOpt := controls.1, argTypesOpt := controls.2, notes := config.notes }

/-- One rendered container of a story (lines 215–244): the state's heading
and description (the template), the component element's tag, the attributes
set on it, and its children. -/
structure StateContainer where
  title : String
  description : Option String := none
  tag : String := ""
  attrs : List (String × JsVal) := []
  children : List ChildSpec := []
deriving DecidableEq

/-- Lines 219–228: set each truthy prop as an attribute under its
kebab-cased name; falsy props are removed (absent). -/
def applyProps (props : List (String × JsVal)) : List (String × JsVal) :=
  props.filterMap fun kv => if truthy kv.2 then some (kebabCase kv.1, kv.2) else none

/-- Render one state into its container. -/
def renderState (tag : String) (s : StoryState) : StateContainer :=
  { title := s.title, description := s.description, tag := tag,
    attrs := applyProps s.props, children := s.children }

/-- Lines 206–210 of the render function: write a shallow copy of the live
args and the generated argTypes onto the first (default) state. -/
def renderOnce (story : StencilStory) (states : List StoryState)
    (args : List (String × JsVal)) : List StoryState :=
  match states with
  | [] => []
  | d :: rest => { d with props := args, argTypesF := story.argTypesOpt } :: rest

/-- The render function (lines 205–248): update the default state, then
render one container per state in order (the main element is emptied first,
so the returned containers are exactly this render's). Returns the
containers and the states as they stand after the render. -/
def renderStory (story : StencilStory) (states : List StoryState)
    (args : List (String × JsVal)) : List StateContainer × List StoryState :=
  let updated := renderOnce story states args
  (updated.map (renderState story.tag), updated)

/-- One step of a render sequence: the story states a render leaves
behind. -/
def renderStep (story : StencilStory) (states : List StoryState)
    (args : List (String × JsVal)) : List StoryState :=
  (renderStory story states args).2

/-- The line-261 duck-typing check: the export's `prototype`, `is` and
`encapsulation` values are all truthy. -/
def isStencilComponent (c : Component) : Bool :=
  truthy c.prototype && truthy c.is && truthy c.encapsulation

/-- `getComponentFromExports` (lines 257–267): walk the module's exports in
key enumeration order and return the first one passing the duck-typing
check, or `undefined` when none does. -/
def getComponentFromExports : List (String × Component) → Option Component
  | [] => none
  | (_, v) :: rest =>
    if isStencilComponent v then some v else getComponentFromExports rest

/-- The slash-separated parts of a route path. -/
def pathParts (p : String) : List String :=
  (splitOnChars p.data [Char.ofNat 47]).map String.mk

/-- A model of the external `path.dirname` for the slash-separated route
paths the bundler contexts produce (no trailing slashes). -/
def pathDirname (p : String) : String :=
  match (pathParts p).dropLast with
  | [] => "."
  | parts => String.intercalate "/" parts

/-- A model of the external `path.basename` for the same paths. -/
def pathBasename (p : String) : String := ((pathParts p).getLast?).getD ""

/-- Line 289: the slash-wrapped directory-name needle used to find the
story route matching a component route. -/
def dirNameOf (compRoute : String) : String :=
  "/" ++ pathBasename (pathDirname compRoute) ++ "/"

/-- `cleanNotes` (lines 274–279): replace every escaped pipe in the notes
with a pair of backticks; undefined notes stay undefined. -/
def cleanNotes : Option String → Option String
  | some notes =>
    some (String.intercalate "\x60 \x60"
      ((splitOnChars notes.data ['\\', '|']).map String.mk))
  | none => none

/-- The object shape of a story module's default export when it is not a
function. -/
structure StoryModuleExport where
  states : List StoryState := []
  args : List (String × JsVal) := []
  argTypes : List (String × Option ArgTypeEntry) := []
  notes : Option String := none
deriving DecidableEq

/-- The default export found at a story route: a function (registered
as-is, kept symbolic) or a story-config object. -/
inductive StoryDefault where
  | fnExport (name : String)
  | objExport (e : StoryModuleExport)
deriving DecidableEq

/-- One value of the configs object `buildGeneratorConfigs` builds. -/
inductive GenEntry where
  | fnConfig (name : String)
  | cfg (config : StoryConfig)
deriving DecidableEq

/-- The state the route reduction threads: the configs object (an ordered
key-value map) and the console warnings emitted so far. -/
structure BuildOutput where
  configs : List (String × GenEntry) := []
  warnings : List String := []
deriving DecidableEq

/-- The object-assign of one key on an ordered key-value map: an existing
key keeps its position and gets the new value; a new key is appended. -/
def assignKey : List (String × α) → String → α → List (String × α)
  | [], k, v => [(k, v)]
  | (k', v') :: rest, k, v =>
    if k' == k then (k, v) :: rest else (k', v') :: assignKey rest k v

/-- One reduction step of `buildGeneratorConfigs` (lines 286–325): find the
component in the route's module exports and the story route whose path
contains the component's directory; a missing component emits a console
warning (modelled by the warnings list) and leaves the accumulator
unchanged, otherwise the config entry is assigned under the component
class's `name`. -/
def buildStep (storyRoutes : List (String × StoryDefault)) (acc : BuildOutput)
    (compRoute : String × List (String × Component)) : BuildOutput :=
  let componentOpt := getComponentFromExports compRoute.2
  let dirName := dirNameOf compRoute.1
  let storyRoute := storyRoutes.find? fun kv => containsSub kv.1 dirName
  match componentOpt with
  | none =>
    { acc with warnings := acc.warnings ++ ["Couldn't load component " ++ compRoute.1] }
  | some component =>
    match storyRoute with
    | some (_, .fnExport f) =>
      { acc with configs := assignKey acc.configs component.name (.fnConfig f) }
    | some (_, .objExport e) =>
      let config : StoryConfig :=
        { comp := component, states := e.states, args := e.args,
          argTypes := e.argTypes, notes := cleanNotes e.notes }
      { acc with configs := assignKey acc.configs component.name (.cfg config) }
    | none =>
      { acc with configs := assignKey acc.configs component.name (.cfg { comp := component }) }

/-- `buildGeneratorConfigs` (lines 282–326): reduce the component routes
into the configs object, starting from an empty accumulator. -/
def buildGeneratorConfigs (componentRoutes : List (String × List (String × Component)))
    (storyRoutes : List (String × StoryDefault)) : BuildOutput :=
  componentRoutes.foldl (buildStep storyRoutes) {}

/-! ## Helper lemmas -/

/-- A successful case-insensitive test equates the lowercased strings. -/
theorem eqI_eq_lower {a b : String} (h : eqI a b = true) : lowerStr a = lowerStr b := by
  simpa [eqI] using h

/-- A character satisfying a predicate that a reference character fails is
not that character. -/
theorem beq_false_of_pred {p : Char → Bool} {q c : Char} (hq : p q = false)
    (hc : p c = true) : (c == q) = false := by
  cases hcq : c == q with
  | false => rfl
  | true => rw [eq_of_beq hcq] at hc; rw [hc] at hq; cases hq

/-- A nonempty string is truthy. -/
theorem truthy_str_of_ne {s : String} (h : s ≠ "") : truthy (JsVal.str s) = true := by
  cases s with
  | mk l =>
    cases l with
    | nil => exact absurd rfl h
    | cons c cs => rfl

/-- A run of `p`-characters followed by a quote closes. -/
theorem afterRun_append {p : Char → Bool} :
    ∀ l : List Char, l.all p = true → afterRun p (l ++ [squoteChar]) = true := by
  intro l
  induction l with
  | nil => intro _; simp [afterRun]
  | cons c cs ih =>
    intro h
    rw [List.all_cons, Bool.and_eq_true] at h
    simp [afterRun, h.1, ih h.2]

/-- An exactly quoted nonempty run of `p`-characters is found by the
containment scanner. -/
theorem hasQuotedSub_exact {p : Char → Bool} (w : List Char) (hne : w ≠ [])
    (hall : w.all p = true) :
    hasQuotedSub p (squoteChar :: (w ++ [squoteChar])) = true := by
  cases w with
  | nil => exact absurd rfl hne
  | cons c cs =>
    rw [List.all_cons, Bool.and_eq_true] at hall
    simp [hasQuotedSub, runThenQuote, hall.1, afterRun_append cs hall.2]

/-- No two adjacent quotes appear in a word run closed by one quote. -/
theorem noDoubleQuote_aux :
    ∀ (w : List Char) (c : Char), isWordChar c = true → w.all isWordChar = true →
      hasDoubleQuoteSub (c :: (w ++ [squoteChar])) = false := by
  intro w
  induction w with
  | nil =>
    intro c hc _
    have hcq := beq_false_of_pred (p := isWordChar) (q := squoteChar) (by decide) hc
    simp [hasDoubleQuoteSub, hcq]
  | cons c' cs ih =>
    intro c hc hall
    rw [List.all_cons, Bool.and_eq_true] at hall
    have hcq := beq_false_of_pred (p := isWordChar) (q := squoteChar) (by decide) hc
    simp [hasDoubleQuoteSub, hcq, ih c' hall.1 hall.2]

/-- An exactly quoted nonempty word has no two adjacent quotes. -/
theorem noDoubleQuote (w : List Char) (hne : w ≠ []) (hall : w.all isWordChar = true) :
    hasDoubleQuoteSub (squoteChar :: (w ++ [squoteChar])) = false := by
  cases w with
  | nil => exact absurd rfl hne
  | cons c cs =>
    rw [List.all_cons, Bool.and_eq_true] at hall
    have hcq := beq_false_of_pred (p := isWordChar) (q := squoteChar) (by decide) hall.1
    simp [hasDoubleQuoteSub, hcq, noDoubleQuote_aux cs c hall.1 hall.2]

/-- `squote` as a character list. -/
theorem squote_data : squote.data = [squoteChar] := by decide

/-- Removing all quotes from an exactly quoted word leaves the word. -/
theorem removeQuotes_exact (w : String) (hall : w.data.all isWordChar = true) :
    removeQuotes (squote ++ w ++ squote) = w := by
  have hkeep : w.data.filter (fun c => !(c == squoteChar)) = w.data := by
    refine List.filter_eq_self.mpr fun c hc => ?_
    have hcw := List.all_eq_true.mp hall c hc
    have hb := beq_false_of_pred (p := isWordChar) (q := squoteChar) (by decide) hcw
    simp [hb]
  cases w with
  | mk l =>
    simp only [removeQuotes, String.data_append, squote_data] at *
    simp [List.filter_append, List.filter_cons, hkeep]

/-- A list with no whitespace survives `dropWhile`. -/
theorem dropWhile_ws_all {l : List Char} (h : ∀ c ∈ l, c.isWhitespace = false) :
    l.dropWhile Char.isWhitespace = l := by
  cases l with
  | nil => rfl
  | cons c cs => rw [List.dropWhile_cons, h c (by simp)]; simp

/-- A run character is not whitespace. -/
theorem run_not_ws {c : Char} (h : isRunChar c = true) : c.isWhitespace = false := by
  cases hw : c.isWhitespace with
  | false => rfl
  | true =>
    simp only [Char.isWhitespace, Bool.or_eq_true, decide_eq_true_eq] at hw
    rcases hw with ((h1 | h1) | h1) | h1 <;> subst h1 <;> exact absurd h (by decide)

/-- Trimming a string of run characters changes nothing. -/
theorem trimStr_runs (w : String) (hall : w.data.all isRunChar = true) :
    trimStr w = w := by
  have hws : ∀ c ∈ w.data, c.isWhitespace = false := fun c hc =>
    run_not_ws (List.all_eq_true.mp hall c hc)
  have hws' : ∀ c ∈ w.data.reverse, c.isWhitespace = false := fun c hc =>
    hws c (List.mem_reverse.mp hc)
  cases w with
  | mk l =>
    simp only [trimStr, trimChars]
    rw [dropWhile_ws_all hws, dropWhile_ws_all hws', List.reverse_reverse]

/-- Removing quotes and pipes from an exactly quoted word-or-hyphen run
leaves the run. -/
theorem removeQuotesPipes_exact (w : String) (hall : w.data.all isRunChar = true) :
    removeQuotesPipes (squote ++ w ++ squote) = w := by
  have hkeep : w.data.filter (fun c => !(c == squoteChar || c == pipeChar)) = w.data := by
    refine List.filter_eq_self.mpr fun c hc => ?_
    have hcw := List.all_eq_true.mp hall c hc
    have hb1 := beq_false_of_pred (p := isRunChar) (q := squoteChar) (by decide) hcw
    have hb2 := beq_false_of_pred (p := isRunChar) (q := pipeChar) (by decide) hcw
    simp [hb1, hb2]
  cases w with
  | mk l =>
    simp only [removeQuotesPipes, String.data_append, squote_data] at *
    simp only [Bool.not_or] at hkeep
    simp [List.filter_append, List.filter_cons, hkeep]

/-- Keys of the entries `getPropsWithControlValues` builds: exactly the keys
of the descriptors whose normalized form carries an attribute. -/
theorem mapFst_entries {β : Type} (jp : String → Option JsVal)
    (args : List (String × JsVal)) (argTypes : List (String × Option ArgTypeEntry))
    (l : List (String × PropDescriptor)) (g : ControlResult → β) :
    ((l.filterMap fun kd =>
        match (normalizeDescriptor kd.2).attrKey with
        | some a =>
          some (kd.1, getControlForProp jp (descriptorProp (normalizeDescriptor kd.2) a)
            args argTypes)
        | none => none).map fun e => (e.1, g e.2)).map Prod.fst =
      ((l.filter fun kd => ((normalizeDescriptor kd.2).attrKey).isSome).map Prod.fst) := by
  induction l with
  | nil => rfl
  | cons kd tl ih =>
    cases h : (normalizeDescriptor kd.2).attrKey <;>
      simp [List.filterMap_cons, List.filter_cons, h, ih]

/-- Any sequence of renders leaves the story states as the head state with
some props and argTypes, followed by the untouched remaining states. -/
theorem foldl_renderStep_shape (story : StencilStory) :
    ∀ (argsSeq : List (List (String × JsVal))) (d : StoryState) (rest : List StoryState),
      ∃ p at', argsSeq.foldl (renderStep story) (d :: rest) =
        { d with props := p, argTypesF := at' } :: rest := by
  intro argsSeq
  induction argsSeq with
  | nil => exact fun d rest => ⟨d.props, d.argTypesF, rfl⟩
  | cons a as ih =>
    intro d rest
    obtain ⟨p, at', hp⟩ := ih { d with props := a, argTypesF := story.argTypesOpt } rest
    exact ⟨p, at', hp⟩

/-- The configs a route reduction builds do not depend on the warnings
accumulated so far. -/
theorem foldl_buildStep_configs (storyRoutes : List (String × StoryDefault)) :
    ∀ (routes : List (String × List (String × Component)))
      (c : List (String × GenEntry)) (w w' : List String),
      (routes.foldl (buildStep storyRoutes) ⟨c, w⟩).configs =
        (routes.foldl (buildStep storyRoutes) ⟨c, w'⟩).configs := by
  intro routes
  induction routes with
  | nil => intro c w w'; rfl
  | cons r tl ih =>
    intro c w w'
    cases h : getComponentFromExports r.2 with
    | none => simp [List.foldl_cons, buildStep, h]; apply ih
    | some component =>
      cases hs : storyRoutes.find? fun kv => containsSub kv.1 (dirNameOf r.1) with
      | none => simp [List.foldl_cons, buildStep, h, hs]; apply ih
      | some kv =>
        obtain ⟨k, sd⟩ := kv
        cases sd <;> simp [List.foldl_cons, buildStep, h, hs] <;> apply ih

/-- A nonempty string has nonempty character data. -/
theorem data_ne_nil {w : String} (h : w ≠ "") : w.data ≠ [] := by
  cases w with
  | mk l =>
    cases l with
    | nil => exact absurd rfl h
    | cons c cs => simp

/-- Cleaning an alternative that is exactly a quoted nonempty run of
word-or-hyphen characters strips exactly its two quotes. -/
theorem cleanAlternative_exact (w : String) (hne : w ≠ "")
    (hall : w.data.all isRunChar = true) :
    cleanAlternative (squote ++ w ++ squote) = w := by
  have hdata : (squote ++ w ++ squote).data = squoteChar :: (w.data ++ [squoteChar]) := by
    simp [String.data_append, squote_data]
  have hq : hasQuotedRun (squote ++ w ++ squote) = true := by
    rw [hasQuotedRun, hdata]
    exact hasQuotedSub_exact w.data (data_ne_nil hne) hall
  rw [cleanAlternative, hq]
  simp only [if_true]
  rw [removeQuotesPipes_exact w hall, trimStr_runs w hall]

/-- The initial story states are the default state followed by the config's
states, whether or not the latter are empty. -/
theorem initialStates_eq (config : StoryConfig) :
    initialStates config =
      { title := defaultStateTitle, tag := some (jsString config.comp.is), props := [],
        children := [{ tag := "span", innerText := "Default" }] } :: config.states := by
  cases h : config.states with
  | nil => simp [initialStates, h]
  | cons s ss => simp [initialStates, h]

/-! ## Claims -/

/-- C1: for a component route whose module has no export that duck-types as
a stencil component (`getComponentFromExports` returns `undefined`), the
route reduction of `buildGeneratorConfigs` emits the console warning for
that route (modelled by the warnings list) and returns the accumulator's
configs object unchanged — the route contributes no config entry wherever
it stands in the route list — and, the reduction being a total function, no
exception is raised. -/
theorem buildGeneratorConfigs_missing_component
    (storyRoutes : List (String × StoryDefault)) (acc : BuildOutput)
    (rc : String × List (String × Component))
    (pre post : List (String × List (String × Component)))
    (h : getComponentFromExports rc.2 = none) :
    buildStep storyRoutes acc rc =
      { acc with warnings := acc.warnings ++ ["Couldn't load component " ++ rc.1] } ∧
    (buildStep storyRoutes acc rc).configs = acc.configs ∧
    (buildGeneratorConfigs (pre ++ rc :: post) storyRoutes).configs =
      (buildGeneratorConfigs (pre ++ post) storyRoutes).configs := by
  refine ⟨by simp [buildStep, h], by simp [buildStep, h], ?_⟩
  rw [buildGeneratorConfigs, buildGeneratorConfigs, List.foldl_append, List.foldl_append,
    List.foldl_cons]
  have hstep : buildStep storyRoutes (pre.foldl (buildStep storyRoutes) {}) rc =
      ⟨(pre.foldl (buildStep storyRoutes) {}).configs,
        (pre.foldl (buildStep storyRoutes) {}).warnings ++
          ["Couldn't load component " ++ rc.1]⟩ := by
    simp [buildStep, h]
  rw [hstep]
  exact foldl_buildStep_configs storyRoutes post
    (pre.foldl (buildStep storyRoutes) {}).configs _ _

/-- Witness for C1: a route whose lone export lacks a truthy prototype
yields the warning and no config entry. -/
theorem buildGeneratorConfigs_missing_component_witness :
    buildStep [] ⟨[], []⟩
        ("./my-button/my-button.tsx",
          [("MyButton", { name := "MyButton", is := JsVal.str "my-button" })]) =
      { configs := [],
        warnings := ["Couldn't load component " ++ "./my-button/my-button.tsx"] } ∧
    (buildStep [] ⟨[], []⟩
        ("./my-button/my-button.tsx",
          [("MyButton", { name := "MyButton", is := JsVal.str "my-button" })])).configs = [] ∧
    (buildGeneratorConfigs
        ([] ++ ("./my-button/my-button.tsx",
          [("MyButton", { name := "MyButton", is := JsVal.str "my-button" })]) :: []) []).configs =
      (buildGeneratorConfigs ([] ++ []) []).configs :=
  buildGeneratorConfigs_missing_component [] ⟨[], []⟩
    ("./my-button/my-button.tsx",
      [("MyButton", { name := "MyButton", is := JsVal.str "my-button" })]) [] [] (by decide)

/-- C2 counterexample. The claim as stated fails on the code at three
concrete inputs: a truthy non-string default (a number) is returned
unchanged, not as `undefined`; an empty-string default is falsy, so on a
date-branch prop the `new Date()` default survives instead of the raw
string (and the parser is never reached although `JSON.parse` of the empty
string throws); and a string that merely contains a quoted word, without
being one, is rewritten with all quotes stripped rather than returned raw
on parse failure, because line 58 tests containment. -/
theorem getControlForProp_default_fallback_counterexample :
    ((getControlForProp (fun _ => none)
        ⟨"number", "count", JsVal.num 5, "number"⟩ [] []).defaultVal = JsVal.num 5 ∧
      JsVal.num 5 ≠ JsVal.undefined) ∧
    ((getControlForProp (fun _ => none)
        ⟨"Date", "start-date", JsVal.str "", "Date"⟩ [] []).defaultVal = JsVal.dateNow ∧
      JsVal.dateNow ≠ JsVal.str "") ∧
    ((getControlForProp (fun _ => none)
        ⟨"string", "label", JsVal.str "x 'y'", "string"⟩ [] []).defaultVal =
          JsVal.str "x y" ∧
      JsVal.str "x y" ≠ JsVal.str "x 'y'") := by
  refine ⟨⟨by decide, by decide⟩, ⟨by decide, by decide⟩, ⟨by decide, by decide⟩⟩

/-- C2 as amended: with no truthy args override, a nonempty string default
containing neither a quoted word nor a quoted empty string, on which
`JSON.parse` throws (`jp` returns `none`), is returned raw as the control's
default — the exception does not propagate — and a truthy non-string
default is returned unchanged (it never reaches the parser, so the
`undefined` arm of the catch fallback is unreachable). -/
theorem getControlForProp_default_fallback
    (jp : String → Option JsVal) (prop : PropMeta)
    (args : List (String × JsVal)) (argTypes : List (String × Option ArgTypeEntry))
    (hov : truthy (argsOverride args prop.attrName) = false) :
    (∀ s, prop.defaultValue = JsVal.str s → s ≠ "" →
      hasQuotedWordSub s = false → hasQuotedEmptySub s = false → jp s = none →
      (getControlForProp jp prop args argTypes).defaultVal = JsVal.str s) ∧
    (prop.defaultValue.isStr = false → truthy prop.defaultValue = true →
      (getControlForProp jp prop args argTypes).defaultVal = prop.defaultValue) := by
  constructor
  · intro s hs hne hqw hqe hj
    have ht := truthy_str_of_ne hne
    simp [getControlForProp, hov, hs, ht, hqw, hqe, hj, JsVal.isStr]
  · intro hns ht
    cases hd : prop.defaultValue with
    | str s => rw [hd] at hns; simp [JsVal.isStr] at hns
    | undefined => rw [hd] at ht; simp [truthy] at ht
    | nullv => rw [hd] at ht; simp [truthy] at ht
    | bool b =>
      have ht' : truthy (JsVal.bool b) = true := hd ▸ ht
      simp [getControlForProp, hov, hd, ht']
    | num n =>
      have ht' : truthy (JsVal.num n) = true := hd ▸ ht
      simp [getControlForProp, hov, hd, ht']
    | dateNow =>
      have ht' : truthy JsVal.dateNow = true := hd ▸ ht
      simp [getControlForProp, hov, hd, ht']

/-- Witness for C2 (amended): the malformed default `hello world` is
returned raw, and a boolean default passes through unchanged. -/
theorem getControlForProp_default_fallback_witness :
    (getControlForProp (fun _ => none)
        ⟨"string", "label", JsVal.str "hello world", "string"⟩ [] []).defaultVal =
      JsVal.str "hello world" ∧
    (getControlForProp (fun _ => none)
        ⟨"boolean", "flag", JsVal.bool true, "boolean"⟩ [] []).defaultVal =
      JsVal.bool true :=
  ⟨(getControlForProp_default_fallback (fun _ => none)
      ⟨"string", "label", JsVal.str "hello world", "string"⟩ [] [] (by decide)).1
      "hello world" rfl (by decide) (by decide) (by decide) rfl,
   (getControlForProp_default_fallback (fun _ => none)
      ⟨"boolean", "flag", JsVal.bool true, "boolean"⟩ [] [] (by decide)).2
      (by decide) (by decide)⟩

/-- C3: with no truthy argTypes override, a prop whose type passes the
anchored case-insensitive number, boolean or object test gets a control
whose type is the lowercased prop type; and when a truthy argTypes override
exists (under the camelCased attribute, falling back to the raw attribute
name), that override is the returned control entry, with its
`defaultValue` field set to the computed default. -/
theorem getControlForProp_primitive_and_override
    (jp : String → Option JsVal) (prop : PropMeta)
    (args : List (String × JsVal)) (argTypes : List (String × Option ArgTypeEntry)) :
    (argTypesOverride argTypes prop.attrName = none →
      (eqI prop.type "number" || eqI prop.type "boolean" || eqI prop.type "object") = true →
      (getControlForProp jp prop args argTypes).control.control.type = lowerStr prop.type) ∧
    ∀ e, argTypesOverride argTypes prop.attrName = some e →
      (getControlForProp jp prop args argTypes).control =
        { e with defaultValue := (getControlForProp jp prop args argTypes).defaultVal } := by
  constructor
  · intro hov ht
    simp [getControlForProp, hov, ht]
  · intro e hov
    simp [getControlForProp, hov]

/-- Witness for C3: a `Boolean`-typed prop gets a `boolean` control, and an
argTypes override under the camelCased attribute name is used as the
control entry. -/
theorem getControlForProp_primitive_and_override_witness :
    (getControlForProp (fun _ => none)
        ⟨"Boolean", "disabled", JsVal.str "false", "boolean"⟩ [] []).control.control.type =
      lowerStr "Boolean" ∧
    (getControlForProp (fun _ => none) ⟨"string", "my-attr", JsVal.undefined, "string"⟩
        [] [("myAttr", some ⟨⟨"radio", []⟩, JsVal.undefined⟩)]).control =
      { control := ⟨"radio", []⟩,
        defaultValue := (getControlForProp (fun _ => none)
          ⟨"string", "my-attr", JsVal.undefined, "string"⟩
          [] [("myAttr", some ⟨⟨"radio", []⟩, JsVal.undefined⟩)]).defaultVal } :=
  ⟨(getControlForProp_primitive_and_override (fun _ => none)
      ⟨"Boolean", "disabled", JsVal.str "false", "boolean"⟩ [] []).1 (by decide) (by decide),
   (getControlForProp_primitive_and_override (fun _ => none)
      ⟨"string", "my-attr", JsVal.undefined, "string"⟩
      [] [("myAttr", some ⟨⟨"radio", []⟩, JsVal.undefined⟩)]).2
      ⟨⟨"radio", []⟩, JsVal.undefined⟩ (by decide)⟩

/-- C4 counterexample: on the union type whose first alternative is
quote-delimited but not a quoted word-or-hyphen run, the code keeps that
alternative verbatim, quotes included, so the options are not the
quote-stripped alternatives the claim describes. -/
theorem getControlForProp_select_union_counterexample :
    (getControlForProp (fun _ => none)
        ⟨"string", "opt", JsVal.undefined, "'a b' | 'c'"⟩ [] []).control.control.options =
      ["'a b'", "c"] ∧
    (["'a b'", "c"] : List String) ≠ ["a b", "c"] := by
  refine ⟨by decide, by decide⟩

/-- C4 as amended: with no truthy argTypes override, a string-typed prop
whose original source type is not itself a primitive type name gets a
select control whose options are the original type split on the union
separator, where each alternative containing a single-quoted word-or-hyphen
run has its quotes (and pipes) removed and is trimmed — in particular an
alternative that is exactly a quoted run loses exactly its two quotes — and
any other alternative is kept verbatim. -/
theorem getControlForProp_select_union
    (jp : String → Option JsVal) (prop : PropMeta)
    (args : List (String × JsVal)) (argTypes : List (String × Option ArgTypeEntry))
    (hov : argTypesOverride argTypes prop.attrName = none)
    (hstr : eqI prop.type "string" = true)
    (hnp : isPrimitiveTypeName prop.originalType = false) :
    (getControlForProp jp prop args argTypes).control.control =
      { type := "select", options := parseSelectOptions prop.originalType } ∧
    ∀ w : String, w ≠ "" → w.data.all isRunChar = true →
      cleanAlternative (squote ++ w ++ squote) = w := by
  refine ⟨?_, fun w hne hall => cleanAlternative_exact w hne hall⟩
  have hl := eqI_eq_lower hstr
  rw [show lowerStr "string" = "string" from by decide] at hl
  have e1 : eqI prop.type "number" = false := by simp only [eqI, hl]; decide
  have e2 : eqI prop.type "boolean" = false := by simp only [eqI, hl]; decide
  have e3 : eqI prop.type "object" = false := by simp only [eqI, hl]; decide
  simp [getControlForProp, hov, e1, e2, e3, hstr, hnp]

/-- Witness for C4 (amended): the `color` union of `my-button` yields a
select control with options `primary` and `secondary`. -/
theorem getControlForProp_select_union_witness :
    (getControlForProp (fun _ => none)
        ⟨"string", "color", JsVal.str "'primary'", "'primary' | 'secondary'"⟩
        [] []).control.control =
      { type := "select", options := parseSelectOptions "'primary' | 'secondary'" } ∧
    parseSelectOptions "'primary' | 'secondary'" = ["primary", "secondary"] :=
  ⟨(getControlForProp_select_union (fun _ => none)
      ⟨"string", "color", JsVal.str "'primary'", "'primary' | 'secondary'"⟩
      [] [] (by decide) (by decide) (by decide)).1,
   by decide⟩

/-- C5: `getPropsWithControlValues` produces an args entry and an argTypes
entry for exactly those property keys whose descriptor, after the legacy
`attr` key is normalized into `attribute` (unconditionally overwriting it),
carries an attribute; descriptors with neither key are silently skipped,
and a component without a `properties` field yields empty args and
argTypes. -/
theorem getPropsWithControlValues_attr_keys
    (jp : String → Option JsVal) (comp : Component)
    (args : List (String × JsVal)) (argTypes : List (String × Option ArgTypeEntry)) :
    ((getPropsWithControlValues jp comp args argTypes).1.map Prod.fst =
      ((comp.properties.getD []).filter fun kd =>
        ((normalizeDescriptor kd.2).attrKey).isSome).map Prod.fst) ∧
    ((getPropsWithControlValues jp comp args argTypes).2.map Prod.fst =
      ((comp.properties.getD []).filter fun kd =>
        ((normalizeDescriptor kd.2).attrKey).isSome).map Prod.fst) ∧
    getPropsWithControlValues jp { comp with properties := none } args argTypes =
      ([], []) :=
  ⟨mapFst_entries jp args argTypes (comp.properties.getD []) (fun r => r.defaultVal),
   mapFst_entries jp args argTypes (comp.properties.getD []) (fun r => r.control),
   rfl⟩

/-- C6: on every render — also after any earlier sequence of renders — the
story renders one container per state in order, with exactly the default
state prepended in front of the configured states; the default state's
props are the live control args of this render, while the configured states
render unchanged, independent of the args, so only the first container is
interactive. -/
theorem createStencilStory_render_containers
    (jp : String → Option JsVal) (config : StoryConfig)
    (argsSeq : List (List (String × JsVal))) (a : List (String × JsVal)) :
    (renderStory (createStencilStory jp config)
        (argsSeq.foldl (renderStep (createStencilStory jp config))
          (createStencilStory jp config).states) a).1 =
      renderState (createStencilStory jp config).tag
          { title := defaultStateTitle, description := none,
            tag := some (jsString config.comp.is), props := a,
            argTypesF := (createStencilStory jp config).argTypesOpt,
            children := [{ tag := "span", innerText := "Default" }] } ::
        config.states.map (renderState (createStencilStory jp config).tag) := by
  have hcs : (createStencilStory jp config).states =
      { title := defaultStateTitle, tag := some (jsString config.comp.is), props := [],
        children := [{ tag := "span", innerText := "Default" }] } :: config.states := by
    simp [createStencilStory, initialStates_eq]
  obtain ⟨p, at', hp⟩ := foldl_renderStep_shape (createStencilStory jp config) argsSeq
    { title := defaultStateTitle, tag := some (jsString config.comp.is), props := [],
      children := [{ tag := "span", innerText := "Default" }] } config.states
  rw [hcs, hp]
  rfl

/-- C7 counterexample: an export that has all three of the duck-typed
properties — its `is` is present (not `undefined`) but the empty string —
is not returned, because line 261 tests truthiness, not presence; so the
claim's presence criterion is not the code's. -/
theorem getComponentFromExports_first_counterexample :
    getComponentFromExports
        [("MyButton",
          (⟨"MyButton", JsVal.str "", JsVal.str "proto", JsVal.str "shadow", none⟩ :
            Component))] = none ∧
    (⟨"MyButton", JsVal.str "", JsVal.str "proto", JsVal.str "shadow", none⟩ :
      Component).is ≠ JsVal.undefined := by
  refine ⟨by decide, by decide⟩

/-- C7 as amended: `getComponentFromExports` returns the first export of
the module, in key enumeration order, whose `prototype`, `is` and
`encapsulation` values are all truthy, and returns `undefined` exactly when
no export passes this duck-typing check. -/
theorem getComponentFromExports_first_truthy (m : List (String × Component)) :
    getComponentFromExports m =
      (m.find? fun kv => isStencilComponent kv.2).map Prod.snd ∧
    (getComponentFromExports m = none ↔
      ∀ kv ∈ m, isStencilComponent kv.2 = false) := by
  induction m with
  | nil => exact ⟨rfl, by simp [getComponentFromExports]⟩
  | cons kv tl ih =>
    cases h : isStencilComponent kv.2 with
    | true =>
      refine ⟨?_, ?_⟩ <;>
        simp [getComponentFromExports, List.find?_cons, h]
    | false =>
      refine ⟨?_, ?_⟩ <;>
        simp [getComponentFromExports, List.find?_cons, h, ih.1, ih.2]

/-- C8: the render closure of `createStencilStory` works on a copy of the
caller's states with the default state unshifted in front, and every render
only rewrites that prepended default state: after the call and any number
of renders, the states after the first are exactly the caller's states (the
same elements in the same order), and the story holds one state more than
the caller passed. -/
theorem createStencilStory_preserves_states
    (jp : String → Option JsVal) (config : StoryConfig)
    (argsSeq : List (List (String × JsVal))) :
    (argsSeq.foldl (renderStep (createStencilStory jp config))
        (createStencilStory jp config).states).tail = config.states ∧
    (argsSeq.foldl (renderStep (createStencilStory jp config))
        (createStencilStory jp config).states).length = config.states.length + 1 := by
  have hcs : (createStencilStory jp config).states =
      { title := defaultStateTitle, tag := some (jsString config.comp.is), props := [],
        children := [{ tag := "span", innerText := "Default" }] } :: config.states := by
    simp [createStencilStory, initialStates_eq]
  obtain ⟨p, at', hp⟩ := foldl_renderStep_shape (createStencilStory jp config) argsSeq
    { title := defaultStateTitle, tag := some (jsString config.comp.is), props := [],
      children := [{ tag := "span", innerText := "Default" }] } config.states
  rw [hcs, hp]
  exact ⟨rfl, by simp⟩

/-- C9: with no truthy args override, the quoted-empty-string default
becomes the placeholder `Example Label`, and a default that is exactly a
quoted word has its single quotes stripped, returning the inner word. -/
theorem getControlForProp_quoted_defaults
    (jp : String → Option JsVal) (prop : PropMeta)
    (args : List (String × JsVal)) (argTypes : List (String × Option ArgTypeEntry))
    (hov : truthy (argsOverride args prop.attrName) = false) :
    (prop.defaultValue = JsVal.str (squote ++ squote) →
      (getControlForProp jp prop args argTypes).defaultVal = JsVal.str "Example Label") ∧
    (∀ w : String, w ≠ "" → w.data.all isWordChar = true →
      prop.defaultValue = JsVal.str (squote ++ w ++ squote) →
      (getControlForProp jp prop args argTypes).defaultVal = JsVal.str w) := by
  constructor
  · intro hd
    have h1 : truthy (JsVal.str (squote ++ squote)) = true := by decide
    have h2 : hasQuotedEmptySub (squote ++ squote) = true := by decide
    simp [getControlForProp, hov, hd, h1, h2]
  · intro w hne hall hd
    have hwne : w.data ≠ [] := data_ne_nil hne
    have hdata : (squote ++ w ++ squote).data = squoteChar :: (w.data ++ [squoteChar]) := by
      simp [String.data_append, squote_data]
    have ht : truthy (JsVal.str (squote ++ w ++ squote)) = true := by
      simp [truthy, hdata]
    have hqe : hasQuotedEmptySub (squote ++ w ++ squote) = false := by
      rw [hasQuotedEmptySub, hdata]
      exact noDoubleQuote w.data hwne hall
    have hqw : hasQuotedWordSub (squote ++ w ++ squote) = true := by
      rw [hasQuotedWordSub, hdata]
      exact hasQuotedSub_exact w.data hwne hall
    have hrq := removeQuotes_exact w hall
    simp [getControlForProp, hov, hd, ht, hqw, hqe, hrq]

/-- Witness for C9: the quoted empty string yields `Example Label` and the
quoted word `primary` is unquoted. -/
theorem getControlForProp_quoted_defaults_witness :
    (getControlForProp (fun _ => none)
        ⟨"string", "label", JsVal.str "''", "string"⟩ [] []).defaultVal =
      JsVal.str "Example Label" ∧
    (getControlForProp (fun _ => none)
        ⟨"string", "color", JsVal.str "'primary'", "'primary' | 'secondary'"⟩
        [] []).defaultVal = JsVal.str "primary" :=
  ⟨(getControlForProp_quoted_defaults (fun _ => none)
      ⟨"string", "label", JsVal.str "''", "string"⟩ [] [] (by decide)).1 (by decide),
   (getControlForProp_quoted_defaults (fun _ => none)
      ⟨"string", "color", JsVal.str "'primary'", "'primary' | 'secondary'"⟩
      [] [] (by decide)).2 "primary" (by decide) (by decide) (by decide)⟩

/-- C10: with no truthy argTypes override, the date branch is unreachable
for a prop whose type passes any of the anchored string, number, boolean or
object tests — the type checks precede the attribute-name check in the
else-if chain — and in particular a string-typed prop whose attribute name
contains `date` still gets the string branch's text or select control,
never a date control. -/
theorem getControlForProp_date_unreachable
    (jp : String → Option JsVal) (prop : PropMeta)
    (args : List (String × JsVal)) (argTypes : List (String × Option ArgTypeEntry))
    (hov : argTypesOverride argTypes prop.attrName = none) :
    ((eqI prop.type "string" || eqI prop.type "number" ||
      eqI prop.type "boolean" || eqI prop.type "object") = true →
      (getControlForProp jp prop args argTypes).control.control.type ≠ "date") ∧
    (eqI prop.type "string" = true → containsSub prop.attrName "date" = true →
      ((getControlForProp jp prop args argTypes).control.control.type = "text" ∨
       (getControlForProp jp prop args argTypes).control.control.type = "select")) := by
  have string_case : eqI prop.type "string" = true →
      (getControlForProp jp prop args argTypes).control.control.type = "text" ∨
      (getControlForProp jp prop args argTypes).control.control.type = "select" := by
    intro hs
    have hl := eqI_eq_lower hs
    rw [show lowerStr "string" = "string" from by decide] at hl
    have e1 : eqI prop.type "number" = false := by simp only [eqI, hl]; decide
    have e2 : eqI prop.type "boolean" = false := by simp only [eqI, hl]; decide
    have e3 : eqI prop.type "object" = false := by simp only [eqI, hl]; decide
    cases hp : isPrimitiveTypeName prop.originalType
    · right
      simp [getControlForProp, hov, e1, e2, e3, hs, hp]
    · left
      simp [getControlForProp, hov, e1, e2, e3, hs, hp]
  constructor
  · intro ht
    simp only [Bool.or_eq_true] at ht
    rcases ht with ((hs | h1) | h2) | h3
    · rcases string_case hs with h | h <;> rw [h] <;> decide
    · have hctl : (getControlForProp jp prop args argTypes).control.control.type =
          lowerStr prop.type := by
        simp [getControlForProp, hov, h1]
      have hl := eqI_eq_lower h1
      rw [show lowerStr "number" = "number" from by decide] at hl
      rw [hctl, hl]
      decide
    · have hctl : (getControlForProp jp prop args argTypes).control.control.type =
          lowerStr prop.type := by
        simp [getControlForProp, hov, h2]
      have hl := eqI_eq_lower h2
      rw [show lowerStr "boolean" = "boolean" from by decide] at hl
      rw [hctl, hl]
      decide
    · have hctl : (getControlForProp jp prop args argTypes).control.control.type =
          lowerStr prop.type := by
        simp [getControlForProp, hov, h3]
      have hl := eqI_eq_lower h3
      rw [show lowerStr "object" = "object" from by decide] at hl
      rw [hctl, hl]
      decide
  · intro hs _
    exact string_case hs

/-- Witness for C10: a string-typed prop whose attribute is `start-date`
gets a text control, not a date control. -/
theorem getControlForProp_date_unreachable_witness :
    (getControlForProp (fun _ => none)
        ⟨"string", "start-date", JsVal.undefined, "string"⟩ [] []).control.control.type ≠
      "date" ∧
    ((getControlForProp (fun _ => none)
        ⟨"string", "start-date", JsVal.undefined, "string"⟩ [] []).control.control.type =
        "text" ∨
     (getControlForProp (fun _ => none)
        ⟨"string", "start-date", JsVal.undefined, "string"⟩ [] []).control.control.type =
        "select") :=
  ⟨(getControlForProp_date_unreachable (fun _ => none)
      ⟨"string", "start-date", JsVal.undefined, "string"⟩ [] [] (by decide)).1 (by decide),
   (getControlForProp_date_unreachable (fun _ => none)
      ⟨"string", "start-date", JsVal.undefined, "string"⟩ [] [] (by decide)).2
      (by decide) (by decide)⟩

end AutomatedStories
